import Mathlib

/-!
A shallow embedding of the GraphQL phonebook server in `src/index.js`.

The server keeps a module-level mutable array `persons` of contact records.
Each resolver is embedded as a Lean function that takes the current store and
returns its result paired with the store it leaves behind, making every read
and write of the `persons` variable explicit. The `uuid()` call of the `uuid`
npm package (external to this repository) is modelled by an extra `newId`
parameter of `addPerson`; the generator's documented contract of returning an
identifier not already in use appears as a hypothesis where a claim needs it.
-/

namespace Phonebook

/-- A contact record, as stored in the `persons` array of `src/index.js`.
The `phone` field may be absent in JavaScript (the third seeded record lacks
it), so it is an `Option String`. -/
structure Person where
  name : String
  phone : Option String
  street : String
  city : String
  id : String
deriving DecidableEq

/-- The value produced by the `Person.address` field resolver
(`type Address` in the schema): street and city composed at read time. -/
structure Address where
  street : String
  city : String
deriving DecidableEq

/-- The `YesNo` enum of the schema, the type of `allPersons`' argument. -/
inductive YesNo where
  | YES
  | NO
deriving DecidableEq

/-- The in-memory store: the contents of the mutable `persons` array. -/
abbrev Store := List Person

/-- First seeded contact (`src/index.js` lines 18-24). -/
def artoHellas : Person :=
  { name := "Arto Hellas", phone := some "040-123543",
    street := "Tapiolankatu 5 A", city := "Espoo",
    id := "3d594650-3436-11e9-bc57-8b80ba54c431" }

/-- Second seeded contact (`src/index.js` lines 25-31). -/
def mattiLuukkainen : Person :=
  { name := "Matti Luukkainen", phone := some "040-432342",
    street := "Malminkaari 10 A", city := "Helsinki",
    id := "3d599470-3436-11e9-bc57-8b80ba54c431" }

/-- Third seeded contact (`src/index.js` lines 32-37); it has no `phone`. -/
def venlaRuuska : Person :=
  { name := "Venla Ruuska", phone := none,
    street := "Nallemäentie 22 C", city := "Helsinki",
    id := "3d599471-3436-11e9-bc57-8b80ba54c431" }

/-- The seeded store: the initial value of the `persons` array
(`src/index.js` lines 17-38). -/
def persons : Store := [artoHellas, mattiLuukkainen, venlaRuuska]

/-- The data of the `GraphQLError` thrown by `addPerson`: its message and the
`extensions` object carrying the machine-readable code and the offending
argument. -/
structure GraphQLErrorData where
  message : String
  code : String
  invalidArgs : String
deriving DecidableEq

/-- The arguments of the `addPerson` mutation
(`name: String!, phone: String, street: String!, city: String!`). -/
structure AddPersonArgs where
  name : String
  phone : Option String
  street : String
  city : String
deriving DecidableEq

/-- JavaScript truthiness of the `phone` field: `undefined` (here `none`) and
the empty string are falsy, every other string is truthy. -/
def truthy : Option String → Bool
  | none => false
  | some s => s != ""

namespace Query

/-- `personCount: () => persons.length` (`src/index.js` line 88). The second
component is the store after the resolver runs. -/
def personCount (s : Store) : Nat × Store := (s.length, s)

/-- The `byPhone` predicate inside `allPersons` (`src/index.js` lines 96-97):
`args.phone === 'YES' ? person.phone : !person.phone`, whose returned value
`filter` tests for truthiness. -/
def byPhone (phone : YesNo) (person : Person) : Bool :=
  match phone with
  | .YES => truthy person.phone
  | .NO => !(truthy person.phone)

/-- `allPersons` resolver (`src/index.js` lines 89-99): with no `phone`
argument it returns `persons` unchanged, otherwise `persons.filter(byPhone)`. -/
def allPersons (phone : Option YesNo) (s : Store) : List Person × Store :=
  match phone with
  | none => (s, s)
  | some yn => (s.filter (byPhone yn), s)

/-- `findPerson` resolver (`src/index.js` lines 100-101):
`persons.find(p => p.name === args.name)`. -/
def findPerson (name : String) (s : Store) : Option Person × Store :=
  (s.find? (fun p => p.name == name), s)

end Query

/-- The `Person.address` field resolver (`src/index.js` lines 113-120):
composes `{ street, city }` from the parent object. It never reads or writes
the store; the store parameter records that. -/
def Person.address (obj : Person) (s : Store) : Address × Store :=
  ({ street := obj.street, city := obj.city }, s)

namespace Mutation

/-- `addPerson` resolver (`src/index.js` lines 124-137): throws a
`GraphQLError` with code `BAD_USER_INPUT` and `invalidArgs: args.name` when a
contact with the same name exists, otherwise appends `{ ...args, id: uuid() }`
and returns it. The thrown error is the `Except.error` case; `uuid()` is the
`newId` parameter. -/
def addPerson (args : AddPersonArgs) (newId : String) (s : Store) :
    Except GraphQLErrorData Person × Store :=
  match s.find? (fun p => p.name == args.name) with
  | some _ =>
    (Except.error
      { message := "Name must be unique", code := "BAD_USER_INPUT",
        invalidArgs := args.name }, s)
  | none =>
    let person : Person :=
      { name := args.name, phone := args.phone, street := args.street,
        city := args.city, id := newId }
    (Except.ok person, s ++ [person])

/-- `editNumber` resolver (`src/index.js` lines 138-147): returns `null` when
`find` misses, otherwise builds `{ ...person, phone: args.phone }` and maps
every stored contact whose name matches to the updated record. -/
def editNumber (name phone : String) (s : Store) : Option Person × Store :=
  match s.find? (fun p => p.name == name) with
  | none => (none, s)
  | some person =>
    let updatedPerson : Person := { person with phone := some phone }
    (some updatedPerson,
     s.map (fun p => if p.name == name then updatedPerson else p))

end Mutation

/-- One client-visible mutation request against the server. -/
inductive Op where
  | add (args : AddPersonArgs) (newId : String)
  | edit (name phone : String)

/-- The store after one mutation request. A failed `addPerson` throws and a
missed `editNumber` returns `null`; both leave the store as it was, which is
the second component of the embedded resolvers. -/
def applyOp (s : Store) : Op → Store
  | .add args newId => (Mutation.addPerson args newId s).2
  | .edit name phone => (Mutation.editNumber name phone s).2

/-- The store reached from the seed by a sequence of mutation requests. -/
def run (ops : List Op) : Store := ops.foldl applyOp persons

/-- The list of stored contact names, in store order. -/
def namesOf (s : Store) : List String := s.map Person.name

/-- C7: in every store state, `personCount` equals the length of the list
returned by `allPersons` with no filter argument. -/
theorem personCount_eq_allPersons_length (s : Store) :
    (Query.personCount s).1 = (Query.allPersons none s).1.length := rfl

/-- C8: in every store state, `allPersons` called with no phone argument
returns every stored contact, in insertion order, with no filtering. -/
theorem allPersons_no_filter (s : Store) :
    (Query.allPersons none s).1 = s := rfl

/-- C10: the query resolvers `personCount`, `allPersons` and `findPerson`, and
the `Person.address` field resolver, leave the store exactly as it was, for
every store state and every argument. -/
theorem query_resolvers_leave_store (s : Store) (phone : Option YesNo)
    (name : String) (obj : Person) :
    (Query.personCount s).2 = s ∧ (Query.allPersons phone s).2 = s ∧
    (Query.findPerson name s).2 = s ∧ (Person.address obj s).2 = s := by
  refine ⟨rfl, ?_, rfl, rfl⟩
  cases phone <;> rfl

/-- C1: when some stored contact already has the requested name, `addPerson`
fails with the "Name must be unique" error, code `BAD_USER_INPUT`, carrying
the offending name in `invalidArgs`, and returns the store completely
unchanged (same list, hence same count and same fields of every record). -/
theorem addPerson_duplicate_name (s : Store) (args : AddPersonArgs)
    (newId : String) (h : ∃ p ∈ s, p.name = args.name) :
    Mutation.addPerson args newId s =
      (Except.error
        { message := "Name must be unique", code := "BAD_USER_INPUT",
          invalidArgs := args.name }, s) := by
  obtain ⟨p, hp, hname⟩ := h
  have hfind : (s.find? (fun q => q.name == args.name)).isSome :=
    List.find?_isSome.mpr ⟨p, hp, by simp [hname]⟩
  obtain ⟨q, hq⟩ := Option.isSome_iff_exists.mp hfind
  simp [Mutation.addPerson, hq]

/-- Witness for C1: adding a second "Arto Hellas" to the seed store fails with
the duplicate-name error and leaves the seed store as it was. -/
theorem addPerson_duplicate_name_witness :
    Mutation.addPerson
      { name := "Arto Hellas", phone := some "000", street := "S", city := "C" }
      "some-new-id" persons =
      (Except.error
        { message := "Name must be unique", code := "BAD_USER_INPUT",
          invalidArgs := "Arto Hellas" }, persons) :=
  addPerson_duplicate_name persons
    { name := "Arto Hellas", phone := some "000", street := "S", city := "C" }
    "some-new-id" ⟨artoHellas, by decide, rfl⟩

/-- C5: when no stored contact has the given name, `editNumber` returns null
and returns the store completely unchanged. -/
theorem editNumber_missing_name (s : Store) (name phone : String)
    (h : ∀ p ∈ s, p.name ≠ name) :
    Mutation.editNumber name phone s = (none, s) := by
  have hfind : s.find? (fun p => p.name == name) = none :=
    List.find?_eq_none.mpr (fun p hp => by simp [h p hp])
  simp [Mutation.editNumber, hfind]

/-- Witness for C5: editing the number of "Pekka Mikkola", absent from the
seed store, returns null and leaves the seed store unchanged. -/
theorem editNumber_missing_name_witness :
    Mutation.editNumber "Pekka Mikkola" "045-2374321" persons =
      (none, persons) :=
  editNumber_missing_name persons "Pekka Mikkola" "045-2374321" (by decide)

/-- C4: when no stored contact has the requested name, `addPerson` appends
exactly one new contact built from the arguments and returns it; the contact
carries the freshly generated id, which (by the generator's contract, the
hypothesis `hid`) differs from the id of every contact already stored. -/
theorem addPerson_new_name (s : Store) (args : AddPersonArgs) (newId : String)
    (hname : ∀ p ∈ s, p.name ≠ args.name) (hid : ∀ p ∈ s, p.id ≠ newId) :
    ∃ person : Person,
      Mutation.addPerson args newId s = (Except.ok person, s ++ [person]) ∧
      (s ++ [person]).length = s.length + 1 ∧
      person =
        { name := args.name, phone := args.phone, street := args.street,
          city := args.city, id := newId } ∧
      ∀ p ∈ s, p.id ≠ person.id := by
  have hfind : s.find? (fun p => p.name == args.name) = none :=
    List.find?_eq_none.mpr (fun p hp => by simp [hname p hp])
  refine ⟨⟨args.name, args.phone, args.street, args.city, newId⟩,
    by simp [Mutation.addPerson, hfind], by simp, rfl, fun p hp => hid p hp⟩

/-- Witness for C4: adding "Pekka Mikkola" to the seed store with a fresh id
appends exactly one matching record. -/
theorem addPerson_new_name_witness :
    ∃ person : Person,
      Mutation.addPerson
        { name := "Pekka Mikkola", phone := some "045-2374321",
          street := "Vilppulantie 25", city := "Helsinki" }
        "fresh-id" persons = (Except.ok person, persons ++ [person]) ∧
      (persons ++ [person]).length = persons.length + 1 ∧
      person =
        { name := "Pekka Mikkola", phone := some "045-2374321",
          street := "Vilppulantie 25", city := "Helsinki", id := "fresh-id" } ∧
      ∀ p ∈ persons, p.id ≠ person.id :=
  addPerson_new_name persons
    { name := "Pekka Mikkola", phone := some "045-2374321",
      street := "Vilppulantie 25", city := "Helsinki" }
    "fresh-id" (by decide) (by decide)

/-- A miss of `find` on the name predicate means no stored contact has the
name. -/
theorem find_name_none (s : Store) (name : String)
    (h : s.find? (fun p => p.name == name) = none) :
    ∀ p ∈ s, p.name ≠ name :=
  fun p hp => by simpa using List.find?_eq_none.mp h p hp

/-- A hit of `find` on the name predicate returns a contact with the name,
placed in the store after contacts that all miss it: the first match. -/
theorem find_name_first (s : Store) (name : String) (p : Person)
    (h : s.find? (fun q => q.name == name) = some p) :
    p.name = name ∧ ∃ l1 l2, s = l1 ++ p :: l2 ∧ ∀ q ∈ l1, q.name ≠ name := by
  induction s with
  | nil => simp at h
  | cons a t ih =>
    by_cases ha : (a.name == name) = true
    · rw [List.find?_cons_of_pos t ha] at h
      obtain rfl : a = p := by injection h
      exact ⟨by simpa using ha, [], t, rfl, by simp⟩
    · rw [List.find?_cons_of_neg t ha] at h
      obtain ⟨hpname, l1, l2, ht, hl1⟩ := ih h
      refine ⟨hpname, a :: l1, l2, by rw [ht]; rfl, ?_⟩
      intro q hq
      rcases List.mem_cons.mp hq with rfl | hq
      · simpa using ha
      · exact hl1 q hq

/-- C6: `findPerson` returns none exactly when no stored contact has the
argument as name (exact, case-sensitive string equality), and otherwise
returns the first stored contact with that name. -/
theorem findPerson_first_match (s : Store) (name : String) :
    ((Query.findPerson name s).1 = none → ∀ p ∈ s, p.name ≠ name) ∧
    (∀ p, (Query.findPerson name s).1 = some p →
      p.name = name ∧ ∃ l1 l2, s = l1 ++ p :: l2 ∧ ∀ q ∈ l1, q.name ≠ name) :=
  ⟨fun h => find_name_none s name h, fun p h => find_name_first s name p h⟩

/-- The truthiness test of the phone field holds exactly for a present,
non-empty phone string. -/
theorem truthy_iff (o : Option String) :
    truthy o = true ↔ ∃ ph, o = some ph ∧ ph ≠ "" := by
  cases o with
  | none => simp [truthy]
  | some ph => simp [truthy]

/-- C3: `allPersons(phone: YES)` is exactly the stored contacts with a
present, non-empty phone; `allPersons(phone: NO)` is exactly the complement;
the two results are disjoint and their union is exactly the unfiltered
`allPersons` result. -/
theorem allPersons_phone_partition (s : Store) :
    (∀ p, p ∈ (Query.allPersons (some YesNo.YES) s).1 ↔
      p ∈ (Query.allPersons none s).1 ∧ ∃ ph, p.phone = some ph ∧ ph ≠ "") ∧
    (∀ p, p ∈ (Query.allPersons (some YesNo.NO) s).1 ↔
      p ∈ (Query.allPersons none s).1 ∧ ¬∃ ph, p.phone = some ph ∧ ph ≠ "") ∧
    (∀ p, ¬(p ∈ (Query.allPersons (some YesNo.YES) s).1 ∧
      p ∈ (Query.allPersons (some YesNo.NO) s).1)) ∧
    (∀ p, p ∈ (Query.allPersons none s).1 ↔
      p ∈ (Query.allPersons (some YesNo.YES) s).1 ∨
      p ∈ (Query.allPersons (some YesNo.NO) s).1) := by
  have hyes : ∀ p : Person, p ∈ (Query.allPersons (some YesNo.YES) s).1 ↔
      p ∈ s ∧ truthy p.phone = true := by
    intro p
    simp [Query.allPersons, Query.byPhone, List.mem_filter]
  have hno : ∀ p : Person, p ∈ (Query.allPersons (some YesNo.NO) s).1 ↔
      p ∈ s ∧ truthy p.phone = false := by
    intro p
    simp [Query.allPersons, Query.byPhone, List.mem_filter]
  refine ⟨?_, ?_, ?_, ?_⟩
  · intro p
    rw [hyes p, ← truthy_iff p.phone]
    exact Iff.rfl
  · intro p
    rw [hno p, ← truthy_iff p.phone]
    simp [Query.allPersons]
  · intro p ⟨h1, h2⟩
    rw [hyes p] at h1
    rw [hno p] at h2
    rw [h1.2] at h2
    exact Bool.noConfusion h2.2
  · intro p
    rw [hyes p, hno p]
    cases htr : truthy p.phone <;> simp [Query.allPersons, htr]

/-- A store in which two distinct contacts share the name "A". Such a store
is outside the reachable states (see the name-uniqueness invariant) but is a
store state. -/
def dupNameStore : Store :=
  [{ name := "A", phone := none, street := "S1", city := "C1", id := "1" },
   { name := "A", phone := none, street := "S2", city := "C2", id := "2" }]

/-- C2 as stated fails on a store where two contacts share the given name:
`editNumber` maps every name match to a copy of the first match, so the
second contact's id changes from "2" to "1" and a contact other than the
updated one is not left unchanged. -/
theorem editNumber_rewrites_other_contact :
    (Mutation.editNumber "A" "06-123" dupNameStore).2.map Person.id =
      ["1", "1"] ∧
    dupNameStore.map Person.id = ["1", "2"] := by decide

/-- Mapping the name-match replacement over contacts that all miss the name
changes nothing. -/
theorem map_replace_of_no_match (upd : Person) (name : String) (l : Store)
    (hl : ∀ q ∈ l, q.name ≠ name) :
    l.map (fun q => if q.name == name then upd else q) = l := by
  induction l with
  | nil => rfl
  | cons a t ih =>
    have ha : a.name ≠ name := hl a (by simp)
    rw [List.map_cons, if_neg (by simp [ha]),
      ih (fun q hq => hl q (List.mem_cons_of_mem a hq))]

/-- C2 (amended): on a store in which exactly one contact carries the given
name — written `l1 ++ p :: l2` with the name missing from `l1` and `l2` —
`editNumber` replaces only that contact's phone field, preserving its name,
street, city and id, leaves every other contact unchanged, preserves the
number and order of contacts, and returns the updated contact. -/
theorem editNumber_existing_unique (l1 l2 : Store) (p : Person)
    (name phone : String) (hp : p.name = name)
    (h1 : ∀ q ∈ l1, q.name ≠ name) (h2 : ∀ q ∈ l2, q.name ≠ name) :
    Mutation.editNumber name phone (l1 ++ p :: l2) =
      (some { p with phone := some phone },
       l1 ++ { p with phone := some phone } :: l2) := by
  have hfind1 : l1.find? (fun q => q.name == name) = none :=
    List.find?_eq_none.mpr (fun q hq => by simp [h1 q hq])
  have hfind : (l1 ++ p :: l2).find? (fun q => q.name == name) = some p := by
    rw [List.find?_append, hfind1, Option.none_or,
      List.find?_cons_of_pos l2 (by simp [hp])]
  rw [Mutation.editNumber, hfind]
  simp only [List.map_append, List.map_cons]
  rw [if_pos (by simp [hp]), map_replace_of_no_match _ name l1 h1,
    map_replace_of_no_match _ name l2 h2]

/-- Witness for C2's amended theorem: updating "Matti Luukkainen"'s number in
the seed store (written as the decomposition around that contact) changes only
his phone field and returns the updated record. -/
theorem editNumber_existing_unique_witness :
    Mutation.editNumber "Matti Luukkainen" "040-999999"
        ([artoHellas] ++ mattiLuukkainen :: [venlaRuuska]) =
      (some { mattiLuukkainen with phone := some "040-999999" },
       [artoHellas] ++
         { mattiLuukkainen with phone := some "040-999999" } :: [venlaRuuska]) :=
  editNumber_existing_unique [artoHellas] [venlaRuuska] mattiLuukkainen
    "Matti Luukkainen" "040-999999" rfl (by decide) (by decide)

/-- `editNumber` never changes the list of stored names, whatever the store:
a miss leaves the store alone, and a hit replaces name matches by a record
carrying that same name. -/
theorem namesOf_editNumber (name phone : String) (s : Store) :
    namesOf (Mutation.editNumber name phone s).2 = namesOf s := by
  rw [Mutation.editNumber]
  cases hfind : s.find? (fun p => p.name == name) with
  | none => rfl
  | some person =>
    have hperson : person.name = name := by
      simpa using List.find?_some hfind
    simp only [namesOf, List.map_map]
    refine List.map_congr_left ?_
    intro a _
    by_cases ha : (a.name == name) = true
    · simp only [Function.comp_apply, if_pos ha]
      have : a.name = name := by simpa using ha
      simp [hperson, this]
    · simp only [Function.comp_apply, if_neg ha]

/-- A successful `addPerson` appends a name that was absent, and a failed one
leaves the store alone: either way pairwise-distinct names are preserved. -/
theorem nodup_namesOf_addPerson (args : AddPersonArgs) (newId : String)
    (s : Store) (h : (namesOf s).Nodup) :
    (namesOf (Mutation.addPerson args newId s).2).Nodup := by
  rw [Mutation.addPerson]
  cases hfind : s.find? (fun p => p.name == args.name) with
  | some q => exact h
  | none =>
    have habsent : ∀ p ∈ s, p.name ≠ args.name :=
      fun p hp => by simpa using List.find?_eq_none.mp hfind p hp
    simp only [namesOf, List.map_append, List.map_cons, List.map_nil]
    rw [List.nodup_append]
    refine ⟨h, List.nodup_singleton _, ?_⟩
    intro x hx hx1
    obtain ⟨p, hp, rfl⟩ := List.mem_map.mp hx
    have : p.name = args.name := by simpa using hx1
    exact habsent p hp this

/-- C9: name uniqueness is an invariant. Every store reachable from the
three-record seed by any sequence of `addPerson` and `editNumber` requests
has pairwise-distinct contact names. -/
theorem run_names_nodup (ops : List Op) : (namesOf (run ops)).Nodup := by
  have hstep : ∀ (l : List Op) (s : Store), (namesOf s).Nodup →
      (namesOf (l.foldl applyOp s)).Nodup := by
    intro l
    induction l with
    | nil => exact fun s h => h
    | cons op t ih =>
      intro s h
      refine ih (applyOp s op) ?_
      cases op with
      | add args newId => exact nodup_namesOf_addPerson args newId s h
      | edit name phone =>
        rw [applyOp, namesOf_editNumber]
        exact h
  exact hstep ops persons (by decide)

end Phonebook
